import Mathlib

/-!
A shallow embedding of the Image-Uploader client core: the resize/compress
codec, the upload orchestrator (quota validation, storage write, record
insert with compensation, best-effort classification), the LLM-response
parsing of the analyzer, and the gallery query.  External collaborators
(object store, record store, HTTP services) are modelled as explicit state
plus outcome oracles, so every definition is executable.
-/

namespace ImageUpload

/-- Health-indicator flags of the classification schema (stoolAnalyzer.js). -/
structure HealthIndicators where
  dehydration : Option Bool
  bloodPresence : Option Bool
  unusualColor : Option Bool
  consistencyIssues : Option Bool
deriving DecidableEq, Repr

/-- The value returned by analyzeStoolImage: a success flag plus the
classification fields (stoolAnalyzer.js, lines 161-256). -/
structure AnalysisResult where
  success : Bool
  isRelevant : Bool
  bristolScore : Option Nat
  sizeEstimation : Option String
  healthIndicators : HealthIndicators
  warnings : List String
  notes : Option String
deriving DecidableEq, Repr

/-- One row of the user_images table. -/
structure ImageRecord where
  id : Nat
  user_id : String
  storage_path : String
  image_url : String
  display_order : Option Int
  created_at : Int
  is_analyzed : Bool
  bristol_score : Option Nat
  size_score : Option String
  health_indicators : Option HealthIndicators
  analysis_notes : Option String
  warnings : Option (List String)
deriving DecidableEq, Repr

/-- The external backend: the object store (a set of keys) and the record
store (the user_images rows, with the id counter the store uses for
inserts). -/
structure Store where
  objects : List String
  records : List ImageRecord
  nextId : Nat
deriving DecidableEq, Repr

/-- A selected file, as the upload loop consumes it (only the name is read
there; bytes live in the object store oracle). -/
structure UFile where
  name : String
deriving DecidableEq, Repr

/-- One entry of the fileSizeInfo component state. -/
structure SizeInfo where
  name : String
  originalSize : Nat
  newSize : Nat
  wasCompressed : Bool
deriving DecidableEq, Repr

/-- The pending-selection component state of ImageUploader.jsx:
selectedFiles, previews (name and data-url), fileSizeInfo. -/
structure UploaderState where
  selectedFiles : List UFile
  previews : List (String × String)
  fileSizeInfo : List SizeInfo
deriving DecidableEq, Repr

/-- The environment of one handleUpload run: the millisecond clock and the
outcome oracles of the external calls, indexed by the position of the file
(resp. record) in the batch. -/
structure Env where
  timestamp : Nat → Nat
  createdAt : Nat → Int
  uploadOk : Nat → Bool
  uploadErrMsg : Nat → String
  insertOk : Nat → Bool
  insertErrMsg : Nat → String
  fetchOk : Nat → Bool
  analysis : Nat → AnalysisResult
  updateOk : Nat → Bool

/-! ### Image codec / resizer (ImageUploader.jsx, resizeImage, lines 29-101) -/

/-- Maximum pixel width (ImageUploader.jsx line 20). -/
def MAX_WIDTH : ℚ := 1920

/-- Maximum byte size, 2MB (ImageUploader.jsx line 21). -/
def MAX_FILE_SIZE : Nat := 2 * 1024 * 1024

/-- Retry cap of the quality loop (ImageUploader.jsx line 58). -/
def maxAttempts : Nat := 5

/-- A file as the resizer sees it: name, MIME type, byte size and pixel
dimensions (dimensions are rationals since the scaled height is a JS
number). -/
structure RFile where
  name : String
  type : String
  size : Nat
  width : ℚ
  height : ℚ
deriving DecidableEq, Repr

/-- Result shape of resizeImage. -/
structure ResizeResult where
  file : RFile
  originalSize : Nat
  newSize : Nat
  wasCompressed : Bool
deriving DecidableEq, Repr

/-- The tryCompress loop (lines 60-86): re-encode at the current quality;
while the blob is over 2MB, the quality is above 0.5 and fewer than
maxAttempts retries happened, drop quality by 0.1 and retry.  The codec is
the oracle encode from quality to blob size.  Returns the final blob size,
the final quality, and the number of encodes performed. -/
def tryCompress (encode : ℚ → Nat) (quality : ℚ) (attempts : Nat) : Nat × ℚ × Nat :=
  let size := encode quality
  if h : MAX_FILE_SIZE < size ∧ 1 / 2 < quality ∧ attempts < maxAttempts then
    let r := tryCompress encode (quality - 1 / 10) (attempts + 1)
    (r.1, r.2.1, r.2.2 + 1)
  else
    (size, quality, 1)
termination_by maxAttempts - attempts
decreasing_by
  have h5 := h.2.2
  simp only [maxAttempts] at h5 ⊢
  omega

/-- resizeImage (lines 29-101): if width exceeds MAX_WIDTH or the byte size
exceeds MAX_FILE_SIZE, scale the width down to MAX_WIDTH (height
proportionally) and run the quality loop from quality 0.9; otherwise pass
the file through unchanged.  encode is the codec oracle, taking the canvas
width, height and quality to the encoded blob size. -/
def resizeImage (encode : ℚ → ℚ → ℚ → Nat) (f : RFile) : ResizeResult :=
  if MAX_WIDTH < f.width ∨ MAX_FILE_SIZE < f.size then
    let dims : ℚ × ℚ :=
      if MAX_WIDTH < f.width then (MAX_WIDTH, f.height * MAX_WIDTH / f.width)
      else (f.width, f.height)
    let r := tryCompress (encode dims.1 dims.2) (9 / 10) 0
    { file := { name := f.name, type := f.type, size := r.1, width := dims.1, height := dims.2 },
      originalSize := f.size, newSize := r.1, wasCompressed := true }
  else
    { file := f, originalSize := f.size, newSize := f.size, wasCompressed := false }

/-! ### Storage keys (ImageUploader.jsx, lines 186-198) -/

/-- fileName (line 189): the millisecond timestamp, an underscore, the
original file name. -/
def uploadFileName (t : Nat) (name : String) : String :=
  Nat.repr t ++ "_" ++ name

/-- storagePath (line 190): user id, slash, fileName. -/
def storageKey (uid : String) (t : Nat) (name : String) : String :=
  uid ++ "/" ++ uploadFileName t name

/-- The public reference URL the record stores for a key (lines 205-207). -/
def publicUrl (key : String) : String :=
  "public/" ++ key

/-- The storage keys a batch derives, file i stamped with the i-th clock
reading (lines 185-190). -/
def deriveKeys (uid : String) (env : Env) (files : List UFile) : List String :=
  files.enum.map (fun p => storageKey uid (env.timestamp p.1) p.2.name)

/-! ### Upload loop (ImageUploader.jsx, lines 185-232) -/

/-- The per-file upload pipeline: derive the key, write to the object store
(upsert false, so a key collision or an injected fault is a storage error
that aborts the batch), insert the record, and on insert failure delete the
just-written object before surfacing the error.  Returns the store as left
behind plus either the inserted records or the thrown error message. -/
def uploadLoop (uid : String) (env : Env) :
    List UFile → Nat → Store → List ImageRecord → Store × Except String (List ImageRecord)
  | [], _, store, uploaded => (store, Except.ok uploaded)
  | file :: rest, i, store, uploaded =>
    let storagePath := storageKey uid (env.timestamp i) file.name
    if storagePath ∈ store.objects ∨ env.uploadOk i = false then
      (store, Except.error ("Failed to upload " ++ file.name ++ ": " ++ env.uploadErrMsg i))
    else
      let store1 : Store := { store with objects := storagePath :: store.objects }
      if env.insertOk i = false then
        let store2 : Store := { store1 with objects := store1.objects.erase storagePath }
        (store2, Except.error ("Failed to save image record: " ++ env.insertErrMsg i))
      else
        let rec1 : ImageRecord :=
          { id := store1.nextId, user_id := uid, storage_path := storagePath,
            image_url := publicUrl storagePath, display_order := none,
            created_at := env.createdAt i, is_analyzed := false,
            bristol_score := none, size_score := none, health_indicators := none,
            analysis_notes := none, warnings := none }
        let store2 : Store :=
          { store1 with records := store1.records ++ [rec1], nextId := store1.nextId + 1 }
        uploadLoop uid env rest (i + 1) store2 (uploaded ++ [rec1])

/-! ### Classification phase (ImageUploader.jsx, lines 240-294) -/

/-- The update of the branches that mark a record analyzed without
classification fields (lines 275-278 and 282-285). -/
def setAnalyzed (r : ImageRecord) : ImageRecord :=
  { r with is_analyzed := true }

/-- The update of the relevant-success branch (lines 255-265): all
classification fields plus is_analyzed. -/
def applyFullUpdate (a : AnalysisResult) (r : ImageRecord) : ImageRecord :=
  { r with bristol_score := a.bristolScore, size_score := a.sizeEstimation,
           health_indicators := some a.healthIndicators,
           analysis_notes := a.notes, warnings := some a.warnings,
           is_analyzed := true }

/-- The record-store update by id. -/
def updateRecord (store : Store) (id : Nat) (f : ImageRecord → ImageRecord) : Store :=
  { store with records := store.records.map (fun r => if r.id = id then f r else r) }

/-- One record's classification handling (lines 251-287), given that its
bytes were fetched: branch on the analysis result; a failed record-store
update (updateOk false) leaves the row as it was.  Returns the new store
and the toast messages shown. -/
def classifyStep (env : Env) (i : Nat) (rec1 : ImageRecord) (store : Store) :
    Store × List String :=
  let a := env.analysis i
  if a.success = true ∧ a.isRelevant = true then
    if env.updateOk i = true then
      (updateRecord store rec1.id (applyFullUpdate a), ["Analysis complete!"])
    else
      (store, ["Analysis saved but failed to update record for image " ++ Nat.repr rec1.id])
  else if a.isRelevant = false then
    ((if env.updateOk i = true then updateRecord store rec1.id setAnalyzed else store),
      ["Image does not appear to be a valid sample"])
  else
    ((if env.updateOk i = true then updateRecord store rec1.id setAnalyzed else store),
      ["Analysis failed - please try again"])

/-- The classifying loop (lines 244-288): records are handled in order; a
failed byte fetch (the fetch call throwing) is caught by the surrounding
try/catch of the phase (lines 289-292), which stops the loop for the
remaining records but rolls nothing back. -/
def classifyLoop (env : Env) : List ImageRecord → Nat → Store → Store
  | [], _, store => store
  | rec1 :: rest, i, store =>
    if env.fetchOk i = true then
      classifyLoop env rest (i + 1) (classifyStep env i rec1 store).1
    else
      store

/-! ### handleUpload (ImageUploader.jsx, lines 157-310) -/

/-- The observable outcome of one handleUpload call. -/
inductive UploadOutcome where
  | noFiles : UploadOutcome
  | atLimit : String → UploadOutcome
  | overLimit : String → UploadOutcome
  | notLoggedIn : String → UploadOutcome
  | uploadError : String → UploadOutcome
  | success : Nat → UploadOutcome
deriving DecidableEq, Repr

/-- The cleared pending-selection state (lines 296-299). -/
def emptyState : UploaderState :=
  { selectedFiles := [], previews := [], fileSizeInfo := [] }

/-- handleUpload: the empty-selection early return and the three
validations (lines 158-175), then the sequential upload loop; on its
success the classifying phase runs and the selection state is cleared; on
an upload error the catch block surfaces the message and leaves the
selection state alone (lines 305-309). -/
def handleUpload (user : Option String) (currentImageCount : Nat) (env : Env)
    (st : UploaderState) (store : Store) : UploadOutcome × UploaderState × Store :=
  if st.selectedFiles.length = 0 then (UploadOutcome.noFiles, st, store)
  else if 60 ≤ currentImageCount then
    (UploadOutcome.atLimit "You have reached the maximum limit of 60 images", st, store)
  else if 60 < currentImageCount + st.selectedFiles.length then
    (UploadOutcome.overLimit
      ("You can only upload " ++ Nat.repr (60 - currentImageCount) ++ " more image(s)"),
      st, store)
  else
    match user with
    | none => (UploadOutcome.notLoggedIn "You must be logged in to upload images", st, store)
    | some uid =>
      match uploadLoop uid env st.selectedFiles 0 store [] with
      | (store1, Except.error msg) => (UploadOutcome.uploadError msg, st, store1)
      | (store1, Except.ok uploaded) =>
        (UploadOutcome.success uploaded.length, emptyState, classifyLoop env uploaded 0 store1)

/-! ### LLM response parsing (stoolAnalyzer.js, analyzeWithLLM lines 127-153) -/

/-- The JSON object shape the LLM is asked for. -/
structure LLMAnalysis where
  isRelevant : Bool
  bristolScore : Option Nat
  sizeEstimation : Option String
  healthIndicators : HealthIndicators
  warnings : List String
  notes : Option String
deriving DecidableEq, Repr

/-- Index of the last occurrence of a character. -/
def lastIdxOf (c : Char) (cs : List Char) : Option Nat :=
  match cs.reverse.findIdx? (fun d => d == c) with
  | none => none
  | some k => some (cs.length - 1 - k)

/-- The span the greedy JS regex of line 132 extracts: a match, when one
exists, runs from the first opening brace to the last closing brace of the
whole text (the closer must come after the opener). -/
def jsonMatch (s : String) : Option String :=
  let cs := s.data
  match cs.findIdx? (fun d => d == '\x7b') with
  | none => none
  | some i =>
    match lastIdxOf '\x7d' cs with
    | none => none
    | some j => if i < j then some (((cs.drop i).take (j - i + 1)).asString) else none

/-- Modelled from the spec: the first brace-delimited span of the free text,
that is, the span from the first opening brace to the first closing brace
after it.  Defined only to compare the code's greedy extraction against the
spec wording; the code itself is jsonMatch. -/
def firstBraceSpan (s : String) : Option String :=
  let cs := s.data
  match cs.findIdx? (fun d => d == '\x7b') with
  | none => none
  | some i =>
    match (cs.drop (i + 1)).findIdx? (fun d => d == '\x7d') with
    | none => none
    | some k => some (((cs.drop i).take (k + 2)).asString)

/-- The structured failure object of the parse catch block (lines 139-151). -/
def parseFallback : LLMAnalysis :=
  { isRelevant := false, bristolScore := none, sizeEstimation := none,
    healthIndicators :=
      { dehydration := none, bloodPresence := none,
        unusualColor := none, consistencyIssues := none },
    warnings := ["Unable to parse analysis results"],
    notes := some "Analysis failed - could not interpret image description" }

/-- The response handling of analyzeWithLLM (lines 130-152): extract the
greedy brace span and parse it; a missing span or a parse failure (the
JSON parser is the oracle parseJSON) lands in the catch block and yields
the structured fallback, never an exception. -/
def analyzeWithLLM (parseJSON : String → Option LLMAnalysis) (generatedText : String) :
    LLMAnalysis :=
  match jsonMatch generatedText with
  | some span =>
    match parseJSON span with
    | some j => j
    | none => parseFallback
  | none => parseFallback

/-! ### Gallery query (useImages hook, fetchImages) -/

/-- The ordering key the query requests: display_order ascending with
absent values last (the store's default null placement for an ascending
order), then created_at descending. -/
def sortKey (r : ImageRecord) : Lex (WithTop ℤ × ℤ) :=
  toLex (r.display_order.elim ⊤ (fun v => (v : WithTop ℤ)), -r.created_at)

/-- The comparator the two order clauses denote. -/
def imageLE (a b : ImageRecord) : Bool :=
  decide (sortKey a ≤ sortKey b)

/-- fetchImages: no user yields the empty list; otherwise the user's rows,
ordered by display_order ascending then created_at descending. -/
def fetchImages (user : Option String) (rows : List ImageRecord) : List ImageRecord :=
  match user with
  | none => []
  | some uid => (rows.filter (fun r => r.user_id == uid)).mergeSort imageLE

/-- The quota count the dashboard displays: the length of the fetched
list (Dashboard.jsx, images.length). -/
def quotaCount (user : Option String) (rows : List ImageRecord) : Nat :=
  (fetchImages user rows).length

/-! ### Shared concrete instances for witnesses -/

/-- An analysis result oracle value for environments of concrete runs. -/
def dummyAnalysis : AnalysisResult :=
  { success := true, isRelevant := false, bristolScore := none, sizeEstimation := none,
    healthIndicators :=
      { dehydration := none, bloodPresence := none,
        unusualColor := none, consistencyIssues := none },
    warnings := [], notes := none }

/-- A fault-free environment with a constant millisecond clock. -/
def baseEnv : Env :=
  { timestamp := fun _ => 1000, createdAt := fun _ => 0,
    uploadOk := fun _ => true, uploadErrMsg := fun _ => "network",
    insertOk := fun _ => true, insertErrMsg := fun _ => "db",
    fetchOk := fun _ => true, analysis := fun _ => dummyAnalysis,
    updateOk := fun _ => true }

/-- The empty backend. -/
def emptyStore : Store :=
  { objects := [], records := [], nextId := 0 }

/-! ### C5: resize is the identity within both limits -/

/-- C5: for every input file whose pixel width is at most 1920 and whose
byte size is at most 2MB, resize passes the file through: the output file
equals the input, newSize equals originalSize, and wasCompressed is
false. -/
theorem resize_identity_within_limits (encode : ℚ → ℚ → ℚ → Nat) (f : RFile)
    (hw : f.width ≤ MAX_WIDTH) (hs : f.size ≤ MAX_FILE_SIZE) :
    resizeImage encode f =
      { file := f, originalSize := f.size, newSize := f.size, wasCompressed := false } := by
  have hcond : ¬ (MAX_WIDTH < f.width ∨ MAX_FILE_SIZE < f.size) := by
    push_neg
    exact ⟨hw, hs⟩
  rw [resizeImage, if_neg hcond]

/-- Witness for C5 at a concrete 800x600, 1000-byte file. -/
theorem resize_identity_within_limits_witness :
    resizeImage (fun _ _ _ => 0)
        { name := "a.jpg", type := "image/jpeg", size := 1000, width := 800, height := 600 } =
      { file := { name := "a.jpg", type := "image/jpeg", size := 1000,
                  width := 800, height := 600 },
        originalSize := 1000, newSize := 1000, wasCompressed := false } :=
  resize_identity_within_limits (fun _ _ _ => 0)
    { name := "a.jpg", type := "image/jpeg", size := 1000, width := 800, height := 600 }
    (by norm_num [MAX_WIDTH]) (by norm_num [MAX_FILE_SIZE])

/-! ### C2: quota validation rejects with zero side effects -/

/-- C2: whenever the user is at the 60-image quota or the batch would
exceed it, handleUpload rejects before any store write or record insert
(the backend is returned untouched and the outcome is never success), and
in the over-quota case the message states the exact allowed remainder
60 - currentImageCount. -/
theorem upload_quota_rejection (user : Option String) (cnt : Nat) (env : Env)
    (st : UploaderState) (store : Store)
    (h : 60 ≤ cnt ∨ 60 < cnt + st.selectedFiles.length) :
    (handleUpload user cnt env st store).2.2 = store ∧
    (∀ n, (handleUpload user cnt env st store).1 ≠ UploadOutcome.success n) ∧
    (cnt < 60 → 60 < cnt + st.selectedFiles.length →
      (handleUpload user cnt env st store).1 =
        UploadOutcome.overLimit
          ("You can only upload " ++ Nat.repr (60 - cnt) ++ " more image(s)")) := by
  by_cases h0 : st.selectedFiles.length = 0
  · refine ⟨by simp [handleUpload, h0], by simp [handleUpload, h0], ?_⟩
    intro h1 h2
    omega
  · by_cases h1 : 60 ≤ cnt
    · refine ⟨by simp [handleUpload, h0, h1], by simp [handleUpload, h0, h1], ?_⟩
      intro h2 _
      omega
    · have h2 : 60 < cnt + st.selectedFiles.length := by
        rcases h with h | h
        · omega
        · exact h
      exact ⟨by simp [handleUpload, h0, h1, h2], by simp [handleUpload, h0, h1, h2],
        fun _ _ => by simp [handleUpload, h0, h1, h2]⟩

/-- Witness for C2: a user at 59/60 uploading 2 files is rejected with the
message naming the single remaining slot, and the backend is untouched. -/
theorem upload_quota_rejection_witness :
    (handleUpload (some "u") 59 baseEnv
        { selectedFiles := [{ name := "a.jpg" }, { name := "b.jpg" }],
          previews := [], fileSizeInfo := [] } emptyStore).2.2 = emptyStore ∧
    (handleUpload (some "u") 59 baseEnv
        { selectedFiles := [{ name := "a.jpg" }, { name := "b.jpg" }],
          previews := [], fileSizeInfo := [] } emptyStore).1 =
      UploadOutcome.overLimit "You can only upload 1 more image(s)" := by
  have h := upload_quota_rejection (some "u") 59 baseEnv
    { selectedFiles := [{ name := "a.jpg" }, { name := "b.jpg" }],
      previews := [], fileSizeInfo := [] } emptyStore (by norm_num)
  refine ⟨h.1, ?_⟩
  rw [h.2.2 (by norm_num) (by norm_num)]
  rfl

/-! ### C10: selection state is preserved on failure, cleared on success -/

/-- C10: if the upload aborts with a storage-write or record-insert error,
the pending selection state (selectedFiles, previews, fileSizeInfo) is
exactly as before the attempt, committed files included, so a retry
re-attempts every selected file; the selection is cleared only on the
full-success path. -/
theorem upload_failure_preserves_selection (user : Option String) (cnt : Nat) (env : Env)
    (st : UploaderState) (store : Store) :
    (∀ msg, (handleUpload user cnt env st store).1 = UploadOutcome.uploadError msg →
      (handleUpload user cnt env st store).2.1 = st) ∧
    (∀ n, (handleUpload user cnt env st store).1 = UploadOutcome.success n →
      (handleUpload user cnt env st store).2.1 = emptyState) := by
  unfold handleUpload
  split
  · simp
  split
  · simp
  split
  · simp
  split
  · simp
  split
  · simp
  · simp

/-- Witness for C10: a concrete run whose record insert fails keeps the
two-file selection intact. -/
theorem upload_failure_preserves_selection_witness :
    (handleUpload (some "u") 0 { baseEnv with insertOk := fun _ => false }
        { selectedFiles := [{ name := "a.jpg" }, { name := "b.jpg" }],
          previews := [("a.jpg", "p")], fileSizeInfo := [] } emptyStore).2.1 =
      { selectedFiles := [{ name := "a.jpg" }, { name := "b.jpg" }],
        previews := [("a.jpg", "p")], fileSizeInfo := [] } :=
  (upload_failure_preserves_selection (some "u") 0
      { baseEnv with insertOk := fun _ => false }
      { selectedFiles := [{ name := "a.jpg" }, { name := "b.jpg" }],
        previews := [("a.jpg", "p")], fileSizeInfo := [] } emptyStore).1
    "Failed to save image record: db" (by decide)

/-! ### C1: record-insert failure compensates by deleting the object -/

/-- C1: if the object-store write of a file succeeds (its key was free and
the write did not fault) but the record insert fails, the loop deletes the
just-written object and surfaces the error: the backend is restored
exactly, the derived key holds no object, and the no-orphan invariant
(every stored object has a referencing record) carries over. -/
theorem insert_failure_compensates (uid : String) (env : Env) (file : UFile)
    (rest : List UFile) (i : Nat) (store : Store) (uploaded : List ImageRecord)
    (hkey : storageKey uid (env.timestamp i) file.name ∉ store.objects)
    (hup : env.uploadOk i = true) (hins : env.insertOk i = false)
    (horph : ∀ k ∈ store.objects, ∃ r ∈ store.records, r.storage_path = k) :
    uploadLoop uid env (file :: rest) i store uploaded =
      (store, Except.error ("Failed to save image record: " ++ env.insertErrMsg i)) ∧
    storageKey uid (env.timestamp i) file.name ∉
      (uploadLoop uid env (file :: rest) i store uploaded).1.objects ∧
    ∀ k ∈ (uploadLoop uid env (file :: rest) i store uploaded).1.objects,
      ∃ r ∈ (uploadLoop uid env (file :: rest) i store uploaded).1.records,
        r.storage_path = k := by
  have heq : uploadLoop uid env (file :: rest) i store uploaded =
      (store, Except.error ("Failed to save image record: " ++ env.insertErrMsg i)) := by
    simp [uploadLoop, hkey, hup, hins, List.erase_cons_head]
  refine ⟨heq, ?_, ?_⟩
  · rw [heq]
    exact hkey
  · rw [heq]
    exact horph

/-- Witness for C1: a concrete insert-failure run on the empty store leaves
the store empty and errors out. -/
theorem insert_failure_compensates_witness :
    uploadLoop "u" { baseEnv with insertOk := fun _ => false }
        [{ name := "a.jpg" }] 0 emptyStore [] =
      (emptyStore, Except.error "Failed to save image record: db" ) :=
  (insert_failure_compensates "u" { baseEnv with insertOk := fun _ => false }
    { name := "a.jpg" } [] 0 emptyStore [] (by decide) (by decide) (by decide)
    (by intro k hk; simp [emptyStore] at hk)).1

/-! ### C4: the three terminal classification outcomes -/

/-- A freshly inserted record, for concrete runs. -/
def recFresh : ImageRecord :=
  { id := 7, user_id := "u", storage_path := "u/1000_a.jpg",
    image_url := "public/u/1000_a.jpg", display_order := none, created_at := 0,
    is_analyzed := false, bristol_score := none, size_score := none,
    health_indicators := none, analysis_notes := none, warnings := none }

/-- Updating by id keeps a record with the target id present, analyzed,
whenever the update function marks its argument analyzed. -/
lemma updateRecord_mem_analyzed (store : Store) (rec1 : ImageRecord)
    (f : ImageRecord → ImageRecord) (hmem : rec1 ∈ store.records)
    (hf : (f rec1).id = rec1.id ∧ (f rec1).is_analyzed = true) :
    ∃ r ∈ (updateRecord store rec1.id f).records,
      r.id = rec1.id ∧ r.is_analyzed = true := by
  refine ⟨f rec1, ?_, hf.1, hf.2⟩
  have hmap := List.mem_map_of_mem (fun r => if r.id = rec1.id then f r else r) hmem
  simpa [updateRecord] using hmap

/-- C4: a record's classification attempt (bytes already fetched, the
record-store update succeeding) lands in exactly one of three terminal
outcomes - relevant success updates all classification fields, irrelevant
success updates only is_analyzed, failure updates only is_analyzed and
shows a non-fatal warning toast - and in every outcome a record with the
target id ends analyzed. -/
theorem classification_three_outcomes (env : Env) (i : Nat) (rec1 : ImageRecord)
    (store : Store) (hmem : rec1 ∈ store.records) (hupd : env.updateOk i = true)
    (hfresh : rec1.bristol_score = none ∧ rec1.size_score = none ∧
      rec1.health_indicators = none ∧ rec1.analysis_notes = none ∧
      rec1.warnings = none) :
    (((env.analysis i).success = true ∧ (env.analysis i).isRelevant = true) ∨
      ((env.analysis i).success = true ∧ (env.analysis i).isRelevant = false) ∨
      (env.analysis i).success = false) ∧
    ((env.analysis i).success = true → (env.analysis i).isRelevant = true →
      (classifyStep env i rec1 store).1 =
        updateRecord store rec1.id (applyFullUpdate (env.analysis i)) ∧
      (applyFullUpdate (env.analysis i) rec1).is_analyzed = true ∧
      (applyFullUpdate (env.analysis i) rec1).bristol_score = (env.analysis i).bristolScore ∧
      (applyFullUpdate (env.analysis i) rec1).size_score = (env.analysis i).sizeEstimation ∧
      (applyFullUpdate (env.analysis i) rec1).health_indicators =
        some (env.analysis i).healthIndicators ∧
      (applyFullUpdate (env.analysis i) rec1).analysis_notes = (env.analysis i).notes ∧
      (applyFullUpdate (env.analysis i) rec1).warnings = some (env.analysis i).warnings) ∧
    ((env.analysis i).success = true → (env.analysis i).isRelevant = false →
      (classifyStep env i rec1 store).1 = updateRecord store rec1.id setAnalyzed ∧
      (setAnalyzed rec1).is_analyzed = true ∧
      (setAnalyzed rec1).bristol_score = none ∧
      (setAnalyzed rec1).size_score = none ∧
      (setAnalyzed rec1).health_indicators = none ∧
      (setAnalyzed rec1).analysis_notes = none ∧
      (setAnalyzed rec1).warnings = none) ∧
    ((env.analysis i).success = false →
      (classifyStep env i rec1 store).1 = updateRecord store rec1.id setAnalyzed ∧
      (setAnalyzed rec1).is_analyzed = true ∧
      (setAnalyzed rec1).bristol_score = none ∧
      (setAnalyzed rec1).size_score = none ∧
      (setAnalyzed rec1).health_indicators = none ∧
      (setAnalyzed rec1).analysis_notes = none ∧
      (setAnalyzed rec1).warnings = none ∧
      (classifyStep env i rec1 store).2 ≠ []) ∧
    (∃ r ∈ (classifyStep env i rec1 store).1.records,
      r.id = rec1.id ∧ r.is_analyzed = true) := by
  obtain ⟨hb, hsz, hh, hn, hw⟩ := hfresh
  refine ⟨?_, ?_, ?_, ?_, ?_⟩
  · cases (env.analysis i).success <;> cases (env.analysis i).isRelevant <;> simp
  · intro hs hr
    exact ⟨by simp [classifyStep, hs, hr, hupd], by simp [applyFullUpdate],
      by simp [applyFullUpdate], by simp [applyFullUpdate], by simp [applyFullUpdate],
      by simp [applyFullUpdate], by simp [applyFullUpdate]⟩
  · intro hs hr
    exact ⟨by simp [classifyStep, hs, hr, hupd], by simp [setAnalyzed],
      by simp [setAnalyzed, hb], by simp [setAnalyzed, hsz], by simp [setAnalyzed, hh],
      by simp [setAnalyzed, hn], by simp [setAnalyzed, hw]⟩
  · intro hs
    cases hr : (env.analysis i).isRelevant <;>
      exact ⟨by simp [classifyStep, hs, hr, hupd], by simp [setAnalyzed],
        by simp [setAnalyzed, hb], by simp [setAnalyzed, hsz], by simp [setAnalyzed, hh],
        by simp [setAnalyzed, hn], by simp [setAnalyzed, hw],
        by simp [classifyStep, hs, hr, hupd]⟩
  · have hex : ∃ f : ImageRecord → ImageRecord,
        (classifyStep env i rec1 store).1 = updateRecord store rec1.id f ∧
        (f rec1).id = rec1.id ∧ (f rec1).is_analyzed = true := by
      cases hs : (env.analysis i).success <;> cases hr : (env.analysis i).isRelevant
      · exact ⟨setAnalyzed, by simp [classifyStep, hs, hr, hupd], rfl, by simp [setAnalyzed]⟩
      · exact ⟨setAnalyzed, by simp [classifyStep, hs, hr, hupd], rfl, by simp [setAnalyzed]⟩
      · exact ⟨setAnalyzed, by simp [classifyStep, hs, hr, hupd], rfl, by simp [setAnalyzed]⟩
      · exact ⟨applyFullUpdate (env.analysis i), by simp [classifyStep, hs, hr, hupd], rfl,
          by simp [applyFullUpdate]⟩
    obtain ⟨f, hstep, hfid, hfan⟩ := hex
    rw [hstep]
    exact updateRecord_mem_analyzed store rec1 f hmem ⟨hfid, hfan⟩

/-- Witness for C4: a concrete failed analysis still ends with the record
analyzed. -/
theorem classification_three_outcomes_witness :
    ∃ r ∈ (classifyStep { baseEnv with analysis := fun _ => { dummyAnalysis with success := false } }
        0 recFresh { emptyStore with records := [recFresh] }).1.records,
      r.id = recFresh.id ∧ r.is_analyzed = true :=
  (classification_three_outcomes
    { baseEnv with analysis := fun _ => { dummyAnalysis with success := false } }
    0 recFresh { emptyStore with records := [recFresh] }
    (by simp) (by decide) (by decide)).2.2.2.2

/-! ### C8: the extracted span and the structured parse fallback -/

/-- The parsed object a well-formed response would carry, for concrete
runs. -/
def llmOk : LLMAnalysis :=
  { isRelevant := true, bristolScore := some 4, sizeEstimation := some "medium",
    healthIndicators :=
      { dehydration := some false, bloodPresence := some false,
        unusualColor := some false, consistencyIssues := some false },
    warnings := [], notes := none }

/-- A free-text response holding two disjoint brace spans. -/
def twoSpanText : String := "a\x7b\"x\":1\x7d b \x7b\"y\":2\x7d"

/-- A JSON-parse oracle that accepts exactly the first brace span of
twoSpanText. -/
def firstSpanParser : String → Option LLMAnalysis :=
  fun s => if s = "\x7b\"x\":1\x7d" then some llmOk else none

/-- Counterexample to C8 as stated: on a response with two disjoint brace
spans the code's greedy extraction is not the first brace-delimited span,
and with a parser that does parse that first span the client still returns
the structured fallback instead of the parsed object. -/
theorem greedy_span_not_first_span :
    jsonMatch twoSpanText ≠ firstBraceSpan twoSpanText ∧
    firstSpanParser ((firstBraceSpan twoSpanText).getD "") = some llmOk ∧
    analyzeWithLLM firstSpanParser twoSpanText = parseFallback := by
  refine ⟨by decide, by decide, by decide⟩

/-- C8 (amended): the client extracts the span running from the first
opening brace to the last closing brace of the free text and parses that;
whenever no such span exists or the parse fails, the result is the
structured failure object - the parsing path never escapes as an
exception. -/
theorem analyzeWithLLM_fallback (parseJSON : String → Option LLMAnalysis)
    (generatedText : String) :
    (∀ span, jsonMatch generatedText = some span →
      analyzeWithLLM parseJSON generatedText = (parseJSON span).getD parseFallback) ∧
    (jsonMatch generatedText = none →
      analyzeWithLLM parseJSON generatedText = parseFallback) := by
  constructor
  · intro span hs
    unfold analyzeWithLLM
    rw [hs]
    cases hp : parseJSON span <;> simp [hp]
  · intro hn
    unfold analyzeWithLLM
    rw [hn]

/-- Witness for C8: a brace-free response yields the structured fallback. -/
theorem analyzeWithLLM_fallback_witness :
    analyzeWithLLM (fun _ => none) "no json here" = parseFallback :=
  (analyzeWithLLM_fallback (fun _ => none) "no json here").2 (by decide)

/-! ### C3: isolation of per-record classification failures -/

/-- A second freshly inserted record, for concrete runs. -/
def recFresh2 : ImageRecord :=
  { recFresh with
    id := 8, storage_path := "u/1001_b.jpg",
    image_url := "public/u/1001_b.jpg" }

/-- classifyStep never touches the object store. -/
lemma classifyStep_objects (env : Env) (i : Nat) (rec1 : ImageRecord) (store : Store) :
    (classifyStep env i rec1 store).1.objects = store.objects := by
  simp only [classifyStep]
  repeat' split
  all_goals rfl

/-- classifyStep keeps every record's id and storage path. -/
lemma classifyStep_proj (env : Env) (i : Nat) (rec1 : ImageRecord) (store : Store) :
    (classifyStep env i rec1 store).1.records.map (fun r => (r.id, r.storage_path)) =
      store.records.map (fun r => (r.id, r.storage_path)) := by
  have key : ∀ (f : ImageRecord → ImageRecord),
      (∀ s, (f s).id = s.id ∧ (f s).storage_path = s.storage_path) →
      (updateRecord store rec1.id f).records.map (fun r => (r.id, r.storage_path)) =
        store.records.map (fun r => (r.id, r.storage_path)) := by
    intro f hf
    simp only [updateRecord, List.map_map]
    apply List.map_congr_left
    intro a _
    by_cases h : a.id = rec1.id <;> simp [h, (hf a).1, (hf a).2]
  simp only [classifyStep]
  repeat' split
  all_goals first
    | rfl
    | exact key _ (fun s => by simp [applyFullUpdate])
    | exact key _ (fun s => by simp [setAnalyzed])

/-- An already-analyzed record stays analyzed through classifyStep. -/
lemma classifyStep_analyzed_mono (env : Env) (i : Nat) (rec1 : ImageRecord)
    (store : Store) (x : Nat)
    (h : ∃ r ∈ store.records, r.id = x ∧ r.is_analyzed = true) :
    ∃ r ∈ (classifyStep env i rec1 store).1.records,
      r.id = x ∧ r.is_analyzed = true := by
  obtain ⟨r, hr, hid, han⟩ := h
  have key : ∀ (f : ImageRecord → ImageRecord), (∀ s, (f s).id = s.id) →
      (∀ s, s.is_analyzed = true → (f s).is_analyzed = true) →
      ∃ r' ∈ (updateRecord store rec1.id f).records,
        r'.id = x ∧ r'.is_analyzed = true := by
    intro f hfid hfan
    refine ⟨if r.id = rec1.id then f r else r, ?_, ?_, ?_⟩
    · have := List.mem_map_of_mem (fun s => if s.id = rec1.id then f s else s) hr
      simpa [updateRecord] using this
    · by_cases h : r.id = rec1.id
      · rw [if_pos h, hfid]
        exact hid
      · rw [if_neg h]
        exact hid
    · by_cases h : r.id = rec1.id
      · rw [if_pos h]
        exact hfan r han
      · rw [if_neg h]
        exact han
  simp only [classifyStep]
  repeat' split
  all_goals first
    | exact ⟨r, hr, hid, han⟩
    | exact key _ (fun s => rfl) (fun s _ => by simp [applyFullUpdate])
    | exact key _ (fun s => rfl) (fun s _ => by simp [setAnalyzed])

/-- With a succeeding record-store update, classifyStep marks every record
carrying the target id analyzed, whatever the analysis result was. -/
lemma classifyStep_analyzes (env : Env) (i : Nat) (rec1 : ImageRecord)
    (store : Store) (hupd : env.updateOk i = true)
    (h : ∃ r ∈ store.records, r.id = rec1.id) :
    ∃ r ∈ (classifyStep env i rec1 store).1.records,
      r.id = rec1.id ∧ r.is_analyzed = true := by
  obtain ⟨r, hr, hid⟩ := h
  have key : ∀ (f : ImageRecord → ImageRecord), (∀ s, (f s).id = s.id) →
      (∀ s, (f s).is_analyzed = true) →
      ∃ r' ∈ (updateRecord store rec1.id f).records,
        r'.id = rec1.id ∧ r'.is_analyzed = true := by
    intro f hfid hfan
    refine ⟨f r, ?_, by rw [hfid, hid], hfan r⟩
    have := List.mem_map_of_mem (fun s => if s.id = rec1.id then f s else s) hr
    simpa [updateRecord, hid] using this
  unfold classifyStep
  simp only [hupd, reduceIte]
  split
  · exact key _ (fun s => rfl) (fun s => by simp [applyFullUpdate])
  split
  · exact key _ (fun s => rfl) (fun s => by simp [setAnalyzed])
  · exact key _ (fun s => rfl) (fun s => by simp [setAnalyzed])

/-- The classifying loop never touches the object store. -/
lemma classifyLoop_objects (env : Env) :
    ∀ (recs : List ImageRecord) (i : Nat) (store : Store),
      (classifyLoop env recs i store).objects = store.objects := by
  intro recs
  induction recs with
  | nil => intro i store; rfl
  | cons rec1 rest ih =>
    intro i store
    rw [classifyLoop]
    split
    · rw [ih, classifyStep_objects]
    · rfl

/-- The classifying loop keeps every record's id and storage path. -/
lemma classifyLoop_proj (env : Env) :
    ∀ (recs : List ImageRecord) (i : Nat) (store : Store),
      (classifyLoop env recs i store).records.map (fun r => (r.id, r.storage_path)) =
        store.records.map (fun r => (r.id, r.storage_path)) := by
  intro recs
  induction recs with
  | nil => intro i store; rfl
  | cons rec1 rest ih =>
    intro i store
    rw [classifyLoop]
    split
    · rw [ih, classifyStep_proj]
    · rfl

/-- An already-analyzed record stays analyzed through the rest of the
loop. -/
lemma classifyLoop_analyzed_mono (env : Env) :
    ∀ (recs : List ImageRecord) (i : Nat) (store : Store) (x : Nat),
      (∃ r ∈ store.records, r.id = x ∧ r.is_analyzed = true) →
      ∃ r ∈ (classifyLoop env recs i store).records,
        r.id = x ∧ r.is_analyzed = true := by
  intro recs
  induction recs with
  | nil => intro i store x h; exact h
  | cons rec1 rest ih =>
    intro i store x h
    rw [classifyLoop]
    split
    · exact ih (i + 1) _ x (classifyStep_analyzed_mono env i rec1 store x h)
    · exact h

/-- Membership of an id among the records transports along equal
projections. -/
lemma mem_id_of_proj_eq (s s' : Store)
    (hproj : s'.records.map (fun r => (r.id, r.storage_path)) =
      s.records.map (fun r => (r.id, r.storage_path))) (x : Nat)
    (h : ∃ r ∈ s.records, r.id = x) : ∃ r ∈ s'.records, r.id = x := by
  obtain ⟨r, hr, hid⟩ := h
  have hmem : (r.id, r.storage_path) ∈
      s'.records.map (fun r => (r.id, r.storage_path)) := by
    rw [hproj]
    exact List.mem_map_of_mem _ hr
  rw [List.mem_map] at hmem
  obtain ⟨r', hr', heq⟩ := hmem
  refine ⟨r', hr', ?_⟩
  have := congrArg Prod.fst heq
  simpa [hid] using this

/-- If every byte fetch up to position j succeeds and the record-store
update at j succeeds, then a record with the j-th id ends analyzed,
whatever the earlier analysis results were. -/
lemma classifyLoop_analyzes_aux (env : Env) :
    ∀ (recs : List ImageRecord) (i0 : Nat) (store : Store) (j : Nat)
      (hj : j < recs.length),
      (∀ k, k ≤ j → env.fetchOk (i0 + k) = true) →
      env.updateOk (i0 + j) = true →
      (∃ r ∈ store.records, r.id = (recs.get ⟨j, hj⟩).id) →
      ∃ r ∈ (classifyLoop env recs i0 store).records,
        r.id = (recs.get ⟨j, hj⟩).id ∧ r.is_analyzed = true := by
  intro recs
  induction recs with
  | nil => intro i0 store j hj; simp at hj
  | cons rec1 rest ih =>
    intro i0 store j hj hfetch hupd hmem
    have hf0 : env.fetchOk i0 = true := by simpa using hfetch 0 (Nat.zero_le j)
    rw [classifyLoop, if_pos hf0]
    cases j with
    | zero =>
      simp only [List.get] at hmem ⊢
      exact classifyLoop_analyzed_mono env rest (i0 + 1) _ rec1.id
        (classifyStep_analyzes env i0 rec1 store (by simpa using hupd) hmem)
    | succ j =>
      simp only [List.get] at hmem ⊢
      refine ih (i0 + 1) _ j (by simp only [List.length_cons] at hj; omega) ?_ ?_ ?_
      · intro k hk
        have := hfetch (k + 1) (by omega)
        rwa [show i0 + (k + 1) = i0 + 1 + k by omega] at this
      · rwa [show i0 + 1 + j = i0 + (j + 1) by omega]
      · exact mem_id_of_proj_eq store _ (classifyStep_proj env i0 rec1 store) _ hmem

/-- Counterexample to C3 as stated: in a two-record batch where fetching
the first record's bytes fails (everything else healthy, the analysis
oracle succeeding), the second record is never classified: it ends with
is_analyzed still false. -/
theorem fetch_failure_blocks_batch :
    ((classifyLoop { baseEnv with fetchOk := fun i => i != 0 }
        [recFresh, recFresh2] 0
        { emptyStore with records := [recFresh, recFresh2] }).records.any
      (fun r => r.id == 8 && r.is_analyzed)) = false := by
  decide

/-- C3 (amended): a classification failure of record A that the analyzer
reports (service error or unparsable response) never prevents a later
record B of the batch from being classified and marked analyzed; only a
thrown byte-fetch failure stops the remaining records (caught by the
phase wrapper).  In all cases nothing committed is rolled back: the
object store and every record's id and storage path survive the phase. -/
theorem classification_isolated_per_record (env : Env) (recs : List ImageRecord)
    (store : Store) (j : Nat) (hj : j < recs.length)
    (hfetch : ∀ k, k ≤ j → env.fetchOk k = true)
    (hupd : env.updateOk j = true)
    (hmem : ∃ r ∈ store.records, r.id = (recs.get ⟨j, hj⟩).id) :
    (∃ r ∈ (classifyLoop env recs 0 store).records,
      r.id = (recs.get ⟨j, hj⟩).id ∧ r.is_analyzed = true) ∧
    (classifyLoop env recs 0 store).objects = store.objects ∧
    (classifyLoop env recs 0 store).records.map (fun r => (r.id, r.storage_path)) =
      store.records.map (fun r => (r.id, r.storage_path)) := by
  refine ⟨?_, classifyLoop_objects env recs 0 store, classifyLoop_proj env recs 0 store⟩
  exact classifyLoop_analyzes_aux env recs 0 store j hj
    (fun k hk => by simpa using hfetch k hk) (by simpa using hupd) hmem

/-- Witness for C3 (amended): with the first record's analysis failing but
its bytes fetched, the second record of the batch still ends analyzed. -/
theorem classification_isolated_per_record_witness :
    ∃ r ∈ (classifyLoop { baseEnv with analysis := fun i =>
          if i = 0 then { dummyAnalysis with success := false } else dummyAnalysis }
        [recFresh, recFresh2] 0
        { emptyStore with records := [recFresh, recFresh2] }).records,
      r.id = ([recFresh, recFresh2].get ⟨1, by norm_num⟩).id ∧ r.is_analyzed = true :=
  (classification_isolated_per_record
    { baseEnv with analysis := fun i =>
        if i = 0 then { dummyAnalysis with success := false } else dummyAnalysis }
    [recFresh, recFresh2]
    { emptyStore with records := [recFresh, recFresh2] } 1 (by norm_num)
    (fun k _ => rfl) rfl ⟨recFresh2, by simp, rfl⟩).1

/-! ### C9: gallery query - ownership, ordering, count -/

/-- C9: fetchImages returns only the authenticated user's rows, sorted by
display_order ascending (absent values last) with ties broken by
created_at descending; the list is a permutation of the user's rows in the
store, and the quota count the dashboard shows equals both the length of
the returned sequence and the number of the user's rows. -/
theorem fetchImages_spec (uid : String) (rows : List ImageRecord) :
    (∀ r ∈ fetchImages (some uid) rows, r.user_id = uid) ∧
    List.Pairwise (fun a b => imageLE a b = true) (fetchImages (some uid) rows) ∧
    (fetchImages (some uid) rows).Perm (rows.filter (fun r => r.user_id == uid)) ∧
    quotaCount (some uid) rows = (rows.filter (fun r => r.user_id == uid)).length := by
  have hperm : (fetchImages (some uid) rows).Perm
      (rows.filter (fun r => r.user_id == uid)) :=
    List.mergeSort_perm _ _
  refine ⟨?_, ?_, hperm, hperm.length_eq⟩
  · intro r hr
    have hmem := hperm.mem_iff.mp hr
    exact eq_of_beq (List.mem_filter.mp hmem).2
  · apply List.sorted_mergeSort
    · intro a b c hab hbc
      simp only [imageLE, decide_eq_true_eq] at hab hbc ⊢
      exact le_trans hab hbc
    · intro a b
      rcases le_total (sortKey a) (sortKey b) with h | h
      · simp [imageLE, h]
      · simp [imageLE, h]

/-- Witness for C9 at a concrete two-record store. -/
theorem fetchImages_spec_witness :
    (∀ r ∈ fetchImages (some "u") [recFresh, recFresh2], r.user_id = "u") ∧
    List.Pairwise (fun a b => imageLE a b = true)
      (fetchImages (some "u") [recFresh, recFresh2]) ∧
    (fetchImages (some "u") [recFresh, recFresh2]).Perm
      ([recFresh, recFresh2].filter (fun r => r.user_id == "u")) ∧
    quotaCount (some "u") [recFresh, recFresh2] =
      ([recFresh, recFresh2].filter (fun r => r.user_id == "u")).length :=
  fetchImages_spec "u" [recFresh, recFresh2]

/-! ### C6: the quality loop is bounded and the triggered resize is safe -/

/-- Unfolding equation of tryCompress with a plain conditional. -/
lemma tryCompress_eq (e : ℚ → Nat) (q : ℚ) (a : Nat) :
    tryCompress e q a =
      if MAX_FILE_SIZE < e q ∧ 1 / 2 < q ∧ a < maxAttempts then
        ((tryCompress e (q - 1 / 10) (a + 1)).1,
         (tryCompress e (q - 1 / 10) (a + 1)).2.1,
         (tryCompress e (q - 1 / 10) (a + 1)).2.2 + 1)
      else (e q, q, 1) := by
  rw [tryCompress]
  split <;> rfl

/-- The loop performs at least one and at most maxAttempts - attempts + 1
encodes, and it stops only because the blob fits, the quality floor was
reached, or the attempt cap was hit. -/
lemma tryCompress_spec (e : ℚ → Nat) :
    ∀ (n : Nat) (q : ℚ) (a : Nat), maxAttempts - a ≤ n →
      1 ≤ (tryCompress e q a).2.2 ∧
      (tryCompress e q a).2.2 ≤ n + 1 ∧
      ((tryCompress e q a).1 ≤ MAX_FILE_SIZE ∨ (tryCompress e q a).2.1 ≤ 1 / 2 ∨
        maxAttempts ≤ a + (tryCompress e q a).2.2 - 1) := by
  intro n
  induction n with
  | zero =>
    intro q a hn
    have ha : maxAttempts ≤ a := by omega
    have hc : ¬ (MAX_FILE_SIZE < e q ∧ 1 / 2 < q ∧ a < maxAttempts) := by
      rintro ⟨-, -, hlt⟩
      omega
    rw [tryCompress_eq, if_neg hc]
    dsimp only
    exact ⟨le_refl 1, le_refl 1, Or.inr (Or.inr (by omega))⟩
  | succ n ih =>
    intro q a hn
    rw [tryCompress_eq]
    by_cases hc : MAX_FILE_SIZE < e q ∧ 1 / 2 < q ∧ a < maxAttempts
    · rw [if_pos hc]
      dsimp only
      obtain ⟨h1, h2, h3⟩ := ih (q - 1 / 10) (a + 1) (by omega)
      refine ⟨by omega, by omega, ?_⟩
      rcases h3 with h | h | h
      · exact Or.inl h
      · exact Or.inr (Or.inl h)
      · exact Or.inr (Or.inr (by omega))
    · rw [if_neg hc]
      dsimp only
      refine ⟨le_refl 1, by omega, ?_⟩
      by_cases h1 : MAX_FILE_SIZE < e q
      · by_cases h2 : 1 / 2 < q
        · refine Or.inr (Or.inr ?_)
          have : ¬ a < maxAttempts := fun hlt => hc ⟨h1, h2, hlt⟩
          omega
        · exact Or.inr (Or.inl (le_of_not_lt h2))
      · exact Or.inl (le_of_not_lt h1)

/-- The width-triggered branch of resizeImage. -/
lemma resizeImage_wide (encode : ℚ → ℚ → ℚ → Nat) (f : RFile)
    (hw : MAX_WIDTH < f.width) :
    resizeImage encode f =
      { file :=
          { name := f.name
            type := f.type
            size := (tryCompress (encode MAX_WIDTH (f.height * MAX_WIDTH / f.width))
              (9 / 10) 0).1
            width := MAX_WIDTH
            height := f.height * MAX_WIDTH / f.width }
        originalSize := f.size
        newSize := (tryCompress (encode MAX_WIDTH (f.height * MAX_WIDTH / f.width))
          (9 / 10) 0).1
        wasCompressed := true } := by
  rw [resizeImage, if_pos (Or.inl hw)]
  simp [hw]

/-- The size-only-triggered branch of resizeImage (width already within the
maximum). -/
lemma resizeImage_narrow (encode : ℚ → ℚ → ℚ → Nat) (f : RFile)
    (hw : ¬ MAX_WIDTH < f.width) (hs : MAX_FILE_SIZE < f.size) :
    resizeImage encode f =
      { file :=
          { name := f.name
            type := f.type
            size := (tryCompress (encode f.width f.height) (9 / 10) 0).1
            width := f.width
            height := f.height }
        originalSize := f.size
        newSize := (tryCompress (encode f.width f.height) (9 / 10) 0).1
        wasCompressed := true } := by
  rw [resizeImage, if_pos (Or.inr hs)]
  simp [hw]

/-- C6: on a triggered input (width over 1920 or size over 2MB) the resize
compresses, the output width is at most 1920 with the aspect ratio
preserved (cross-multiplied), the quality loop re-encodes a bounded number
of times (at most maxAttempts + 1) and stops only because the result fits,
the quality floor was reached, or the attempt cap was hit - by
construction it resolves with whatever size that leaves, raising no
error. -/
theorem resize_triggered_bounds (encode : ℚ → ℚ → ℚ → Nat) (f : RFile)
    (h : MAX_WIDTH < f.width ∨ MAX_FILE_SIZE < f.size) :
    (resizeImage encode f).wasCompressed = true ∧
    (resizeImage encode f).file.width ≤ MAX_WIDTH ∧
    (resizeImage encode f).file.width * f.height =
      (resizeImage encode f).file.height * f.width ∧
    ∃ w h2 : ℚ, (resizeImage encode f).file.width = w ∧
      (resizeImage encode f).file.height = h2 ∧
      (resizeImage encode f).newSize = (tryCompress (encode w h2) (9 / 10) 0).1 ∧
      1 ≤ (tryCompress (encode w h2) (9 / 10) 0).2.2 ∧
      (tryCompress (encode w h2) (9 / 10) 0).2.2 ≤ maxAttempts + 1 ∧
      ((tryCompress (encode w h2) (9 / 10) 0).1 ≤ MAX_FILE_SIZE ∨
        (tryCompress (encode w h2) (9 / 10) 0).2.1 ≤ 1 / 2 ∨
        maxAttempts ≤ (tryCompress (encode w h2) (9 / 10) 0).2.2 - 1) := by
  by_cases hw : MAX_WIDTH < f.width
  · rw [resizeImage_wide encode f hw]
    have hz : f.width ≠ 0 := by
      have h0 : (0 : ℚ) < f.width := lt_trans (by norm_num [MAX_WIDTH]) hw
      exact ne_of_gt h0
    refine ⟨rfl, le_refl _, ?_, MAX_WIDTH, f.height * MAX_WIDTH / f.width,
      rfl, rfl, rfl, ?_⟩
    · field_simp
      ring
    · have hb := tryCompress_spec (encode MAX_WIDTH (f.height * MAX_WIDTH / f.width))
        maxAttempts (9 / 10) 0 (by omega)
      exact ⟨hb.1, hb.2.1, by simpa using hb.2.2⟩
  · have hs : MAX_FILE_SIZE < f.size := by
      rcases h with h | h
      · exact absurd h hw
      · exact h
    rw [resizeImage_narrow encode f hw hs]
    refine ⟨rfl, le_of_not_lt hw, by ring, f.width, f.height, rfl, rfl, rfl, ?_⟩
    have hb := tryCompress_spec (encode f.width f.height) maxAttempts (9 / 10) 0 (by omega)
    exact ⟨hb.1, hb.2.1, by simpa using hb.2.2⟩

/-- Witness for C6: a 2400px-wide 3MB file is compressed. -/
theorem resize_triggered_bounds_witness :
    (resizeImage (fun _ _ _ => 0)
      { name := "big.jpg", type := "image/jpeg", size := 3 * 1024 * 1024,
        width := 2400, height := 1600 }).wasCompressed = true :=
  (resize_triggered_bounds (fun _ _ _ => 0)
    { name := "big.jpg", type := "image/jpeg", size := 3 * 1024 * 1024,
      width := 2400, height := 1600 }
    (Or.inl (by norm_num [MAX_WIDTH]))).1

/-! ### C7: derived storage keys - form and distinctness -/

/-- One-step unfolding of the decimal rendering core. -/
lemma toDigitsCore_succ (b f n : Nat) (acc : List Char) :
    Nat.toDigitsCore b (f + 1) n acc =
      if n / b = 0 then Nat.digitChar (n % b) :: acc
      else Nat.toDigitsCore b f (n / b) (Nat.digitChar (n % b) :: acc) := by
  rw [Nat.toDigitsCore]

/-- With enough fuel, the rendering core produces the base-b digits,
most-significant first, in front of the accumulator. -/
lemma toDigitsCore_digits (b : Nat) (hb : 1 < b) :
    ∀ (f n : Nat) (acc : List Char), n ≠ 0 → n < f →
      Nat.toDigitsCore b f n acc =
        ((Nat.digits b n).reverse.map Nat.digitChar) ++ acc := by
  intro f
  induction f with
  | zero => intro n acc h0 hf; omega
  | succ f ih =>
    intro n acc h0 hf
    rw [toDigitsCore_succ]
    by_cases hdiv : n / b = 0
    · rw [if_pos hdiv]
      rw [Nat.digits_def' hb (Nat.pos_of_ne_zero h0), hdiv]
      simp
    · rw [if_neg hdiv]
      have hc2 : n / b < f := by
        have h1 : n / b < n := Nat.div_lt_self (Nat.pos_of_ne_zero h0) hb
        omega
      rw [ih (n / b) (Nat.digitChar (n % b) :: acc) hdiv hc2]
      rw [Nat.digits_def' hb (Nat.pos_of_ne_zero h0)]
      simp

/-- Nat.toDigits at base ten, described through Nat.digits. -/
lemma toDigits_ten (n : Nat) :
    Nat.toDigits 10 n =
      if n = 0 then ['0'] else (Nat.digits 10 n).reverse.map Nat.digitChar := by
  by_cases h : n = 0
  · subst h; rfl
  · rw [if_neg h]
    have hdef : Nat.toDigits 10 n = Nat.toDigitsCore 10 (n + 1) n [] := rfl
    rw [hdef, toDigitsCore_digits 10 (by norm_num) (n + 1) n [] h (by omega),
      List.append_nil]

/-- digitChar is injective on digits. -/
lemma digitChar_injOn (d e : Nat) (hd : d < 10) (he : e < 10)
    (h : Nat.digitChar d = Nat.digitChar e) : d = e := by
  interval_cases d <;> interval_cases e <;> revert h <;> decide

/-- No digit renders as an underscore. -/
lemma digitChar_ne_underscore (d : Nat) (hd : d < 10) : Nat.digitChar d ≠ '_' := by
  interval_cases d <;> decide

/-- The decimal rendering of a number contains no underscore. -/
lemma mem_toDigits_ne_underscore (n : Nat) : '_' ∉ Nat.toDigits 10 n := by
  rw [toDigits_ten]
  split
  · decide
  · intro hm
    rw [List.mem_map] at hm
    obtain ⟨d, hd, hc⟩ := hm
    exact digitChar_ne_underscore d
      (Nat.digits_lt_base (by norm_num) (List.mem_reverse.mp hd)) hc

/-- Mapping digitChar over digit lists is injective. -/
lemma map_digitChar_inj :
    ∀ (l1 l2 : List Nat), (∀ d ∈ l1, d < 10) → (∀ d ∈ l2, d < 10) →
      l1.map Nat.digitChar = l2.map Nat.digitChar → l1 = l2 := by
  intro l1
  induction l1 with
  | nil => intro l2 _ _ h; cases l2 <;> simp_all
  | cons d l ih =>
    intro l2 h1 h2 h
    cases l2 with
    | nil => simp_all
    | cons e l2' =>
      simp only [List.map_cons, List.cons.injEq] at h
      have hd := digitChar_injOn d e (h1 d (by simp)) (h2 e (by simp)) h.1
      rw [hd, ih l2' (fun x hx => h1 x (by simp [hx])) (fun x hx => h2 x (by simp [hx])) h.2]

/-- The decimal rendering is injective. -/
lemma repr_inj (m n : Nat) (h : Nat.repr m = Nat.repr n) : m = n := by
  have hl : Nat.toDigits 10 m = Nat.toDigits 10 n := congrArg String.data h
  rw [toDigits_ten, toDigits_ten] at hl
  by_cases hm : m = 0 <;> by_cases hn : n = 0
  · omega
  · exfalso
    rw [if_pos hm, if_neg hn] at hl
    have hlen : (Nat.digits 10 n).length = 1 := by
      have := congrArg List.length hl
      simpa using this.symm
    obtain ⟨d, hd⟩ := List.length_eq_one.mp hlen
    rw [hd] at hl
    simp only [List.reverse_singleton, List.map_cons, List.map_nil,
      List.cons.injEq] at hl
    have hd10 : d < 10 := Nat.digits_lt_base (by norm_num)
      (by rw [hd]; exact List.mem_singleton_self d)
    have hzero : (0 : Nat) = d := digitChar_injOn 0 d (by norm_num) hd10 hl.1
    have hnd : n = d := by
      have h1 := Nat.ofDigits_digits 10 n
      rw [hd] at h1
      simpa using h1.symm
    exact hn (by omega)
  · exfalso
    rw [if_neg hm, if_pos hn] at hl
    have hlen : (Nat.digits 10 m).length = 1 := by
      have := congrArg List.length hl
      simpa using this
    obtain ⟨d, hd⟩ := List.length_eq_one.mp hlen
    rw [hd] at hl
    simp only [List.reverse_singleton, List.map_cons, List.map_nil,
      List.cons.injEq] at hl
    have hd10 : d < 10 := Nat.digits_lt_base (by norm_num)
      (by rw [hd]; exact List.mem_singleton_self d)
    have hzero : d = 0 := digitChar_injOn d 0 hd10 (by norm_num) hl.1
    have hmd : m = d := by
      have h1 := Nat.ofDigits_digits 10 m
      rw [hd] at h1
      simpa using h1.symm
    exact hm (by omega)
  · rw [if_neg hm, if_neg hn] at hl
    have hms : ∀ d ∈ (Nat.digits 10 m).reverse, d < 10 := fun d hd =>
      Nat.digits_lt_base (by norm_num) (List.mem_reverse.mp hd)
    have hns : ∀ d ∈ (Nat.digits 10 n).reverse, d < 10 := fun d hd =>
      Nat.digits_lt_base (by norm_num) (List.mem_reverse.mp hd)
    have hrev := map_digitChar_inj _ _ hms hns hl
    exact Nat.digits_inj_iff.mp (List.reverse_inj.mp hrev)

/-- Splitting a character list at a separator absent from both prefixes. -/
lemma append_cons_underscore_inj :
    ∀ (a1 a2 b1 b2 : List Char), '_' ∉ a1 → '_' ∉ a2 →
      a1 ++ '_' :: b1 = a2 ++ '_' :: b2 → a1 = a2 ∧ b1 = b2 := by
  intro a1
  induction a1 with
  | nil =>
    intro a2 b1 b2 h1 h2 h
    cases a2 with
    | nil => simpa using h
    | cons c a2' =>
      exfalso
      simp only [List.nil_append, List.cons_append, List.cons.injEq] at h
      apply h2
      rw [h.1]
      exact List.mem_cons_self c a2'
  | cons c a1' ih =>
    intro a2 b1 b2 h1 h2 h
    cases a2 with
    | nil =>
      exfalso
      simp only [List.nil_append, List.cons_append, List.cons.injEq] at h
      apply h1
      rw [← h.1]
      exact List.mem_cons_self c a1'
    | cons d a2' =>
      simp only [List.cons_append, List.cons.injEq] at h
      obtain ⟨hcd, ht⟩ := h
      have h1' : '_' ∉ a1' := fun hm => h1 (List.mem_cons_of_mem c hm)
      have h2' : '_' ∉ a2' := fun hm => h2 (List.mem_cons_of_mem d hm)
      obtain ⟨he, hb⟩ := ih a2' b1 b2 h1' h2' ht
      exact ⟨by rw [hcd, he], hb⟩

/-- Two storage keys of one user agree exactly when the timestamp and the
file name agree: the timestamp is all digits, so the first underscore
splits the key unambiguously. -/
lemma storageKey_inj (uid : String) (t1 t2 : Nat) (n1 n2 : String)
    (h : storageKey uid t1 n1 = storageKey uid t2 n2) : t1 = t2 ∧ n1 = n2 := by
  have hd : uid.data ++ '/' :: ((Nat.repr t1).data ++ '_' :: n1.data) =
      uid.data ++ '/' :: ((Nat.repr t2).data ++ '_' :: n2.data) := by
    have hdata := congrArg String.data h
    simpa [storageKey, uploadFileName, String.data_append, List.append_assoc,
      show String.data "/" = ['/'] from rfl, show String.data "_" = ['_'] from rfl]
      using hdata
  have h2 := List.append_cancel_left hd
  have h3 : (Nat.repr t1).data ++ '_' :: n1.data =
      (Nat.repr t2).data ++ '_' :: n2.data := by
    simpa using h2
  have hu1 : '_' ∉ (Nat.repr t1).data := mem_toDigits_ne_underscore t1
  have hu2 : '_' ∉ (Nat.repr t2).data := mem_toDigits_ne_underscore t2
  obtain ⟨hr, hn⟩ := append_cons_underscore_inj _ _ _ _ hu1 hu2 h3
  exact ⟨repr_inj t1 t2 (String.ext hr), String.ext hn⟩

/-- Counterexample to C7 as stated: two same-named files whose uploads read
the same millisecond clock value derive the same key - the derived keys of
the batch are not pairwise distinct. -/
theorem derived_keys_collision :
    ¬ List.Pairwise (fun a b => a ≠ b)
      (deriveKeys "u" baseEnv [{ name := "a.jpg" }, { name := "a.jpg" }]) := by
  decide

/-- C7 (amended): every derived key has the form
user/{millisecond timestamp}_{original name}, and the keys of a batch are
pairwise distinct provided the clock readings taken for distinct files are
distinct (which same-millisecond uploads of same-named files violate). -/
theorem derived_keys_distinct (uid : String) (env : Env) (files : List UFile)
    (ht : ∀ i j, i < files.length → j < files.length → i ≠ j →
      env.timestamp i ≠ env.timestamp j) :
    List.Pairwise (fun a b => a ≠ b) (deriveKeys uid env files) := by
  rw [List.pairwise_iff_getElem]
  intro i j hi hj hij
  have hi' : i < files.length := by simpa [deriveKeys] using hi
  have hj' : j < files.length := by simpa [deriveKeys] using hj
  intro hkey
  rw [show (deriveKeys uid env files)[i] =
        storageKey uid (env.timestamp i) files[i].name by
      simp [deriveKeys],
    show (deriveKeys uid env files)[j] =
        storageKey uid (env.timestamp j) files[j].name by
      simp [deriveKeys]] at hkey
  exact ht i j hi' hj' (Nat.ne_of_lt hij) (storageKey_inj uid _ _ _ _ hkey).1

/-- Witness for C7 (amended): with strictly advancing clock readings, two
same-named files get distinct keys. -/
theorem derived_keys_distinct_witness :
    List.Pairwise (fun a b => a ≠ b)
      (deriveKeys "u" { baseEnv with timestamp := fun i => 1000 + i }
        [{ name := "a.jpg" }, { name := "a.jpg" }]) :=
  derived_keys_distinct "u" { baseEnv with timestamp := fun i => 1000 + i }
    [{ name := "a.jpg" }, { name := "a.jpg" }]
    (fun i j _ _ hij => by
      show 1000 + i ≠ 1000 + j
      omega)
